import Mathlib

/-!
Verification of the `ImageGenerationService` batch job
(`src/image-generation-service.ts`).

The service is embedded shallowly:

* External collaborators (`GoogleAdsApi`, `GcsApi`, `VertexAiApi`, the
  JavaScript regular-expression engine, and the wall clock) are modelled as
  oracle functions collected in `Env`.
* The durable key/value store (`PropertiesService` script properties) is
  modelled as the record `St`; every write to the
  `lastImageGenerationProcessedAdGroupId` property is also appended to the
  `cursorWrites` trace so that claims about "the identifier is persisted"
  are observable.
* The inner `while` loop of `run()` is modelled with explicit fuel so that
  non-termination of the source loop is expressible (`none` for every fuel).
* JavaScript specifics are modelled bit for bit: `Array.prototype.findIndex`
  returns `-1` when no element matches and the source does not guard that
  value; `String.prototype.slice` with a negative end counts from the end of
  the string; `[...new Set(xs)]` keeps the first occurrence of each element;
  `Array.prototype.join()` uses `","`; a property value is "present" when it
  is truthy, i.e. non-null and non-empty.
-/

namespace Adios

/-! ### JavaScript string primitives -/

/-- `leadsWith p s` is true when the character list `p` is a prefix of `s`. -/
def leadsWith : List Char → List Char → Bool
  | [], _ => true
  | _ :: _, [] => false
  | a :: as, b :: bs => if a = b then leadsWith as bs else false

/-- `occursIn p s` is true when `p` occurs as a contiguous substring of `s`. -/
def occursIn (p : List Char) : List Char → Bool
  | [] => p.isEmpty
  | c :: cs => leadsWith p (c :: cs) || occursIn p cs

/-- ECMAScript `GetSubstitution` for a string (non-regex) pattern: expand
the replacement text `r` at a match, interpreting the substitution
sequences `$$` (a dollar), `$&` (the matched text), ``$` `` (the part of
the original string before the match) and `$'` (the part after the match).
With a string pattern there are no capture groups, so `$n` and `$<name>`
stay literal, as does any other `$`. -/
def getSubstitution (matched before after : List Char) :
    List Char → List Char
  | [] => []
  | [c] => [c]
  | a :: c :: t =>
    if a = '$' then
      if c = '$' then '$' :: getSubstitution matched before after t
      else if c = '&' then matched ++ getSubstitution matched before after t
      else if c = Char.ofNat 96 then
        before ++ getSubstitution matched before after t
      else if c = Char.ofNat 39 then
        after ++ getSubstitution matched before after t
      else '$' :: getSubstitution matched before after (c :: t)
    else a :: getSubstitution matched before after (c :: t)

/-- Fuel-driven worker for `replaceAllL`; the fuel bounds the number of
characters consumed, so `s.length` fuel always suffices. `before` is the
prefix of the original string already scanned, needed by
`getSubstitution`. -/
def replaceAllAux (p r : List Char) : Nat → List Char → List Char → List Char
  | 0, _, s => s
  | _+1, _, [] => []
  | fuel+1, before, c :: cs =>
    if !p.isEmpty && leadsWith p (c :: cs) then
      getSubstitution p before ((c :: cs).drop p.length) r ++
        replaceAllAux p r fuel (before ++ p) ((c :: cs).drop p.length)
    else
      c :: replaceAllAux p r fuel (before ++ [c]) cs

/-- `replaceAllAux` at exactly enough fuel, scanning `s` with already-seen
original prefix `before`. -/
def raRun (p r before s : List Char) : List Char :=
  replaceAllAux p r s.length before s

/-- JavaScript `String.prototype.replaceAll` on character lists: replace
the leftmost occurrence of `p`, substitute the replacement via
`getSubstitution`, continue after the match, never rescan the inserted
text. -/
def replaceAllL (p r s : List Char) : List Char :=
  raRun p r [] s

/-- JavaScript `s.replaceAll(pat, rep)` on `String`. -/
def replaceAllStr (s pat rep : String) : String :=
  String.mk (replaceAllL pat.data rep.data s.data)

/-- JavaScript `s.slice(0, e)`: a negative end index counts from the end of
the string (clamped at `0`). -/
def jsSlice (s : List Char) (e : Int) : List Char :=
  if e < 0 then s.take (s.length - (-e).toNat) else s.take e.toNat

/-- JavaScript `[...new Set(xs)]`: deduplicate keeping the first occurrence
of each element, preserving order. -/
def dedupJs (l : List String) : List String :=
  l.foldl (fun acc x => if acc.contains x then acc else acc ++ [x]) []

/-- JavaScript `Array.prototype.findIndex`: index of the first element
satisfying the predicate, `-1` when there is none. -/
def jsFindIndex (p : α → Bool) : List α → Int
  | [] => -1
  | g :: gs =>
    if p g then 0
    else
      let r := jsFindIndex p gs
      if r < 0 then -1 else r + 1

/-! ### Data model -/

/-- `ADIOS_MODES` from `config.ts`; `unknownMode` stands for any other value
of the `Adios Mode` configuration cell (the `switch` has a `default` arm). -/
inductive AdiosMode
  | adGroupMode
  | keywordsMode
  | unknownMode
deriving DecidableEq

/-- One element of `googleAdsApi.getAdGroups()`: `adGroup.adGroup.id`,
`adGroup.adGroup.name` and `adGroup.customer.id`. -/
structure AdGroup where
  id : String
  name : String
  customerId : String
deriving DecidableEq

/-- The configuration cells read by the service (`CONFIG[...]`). A suffix
equal to `""` models a falsy configuration cell. `timeBudgetMs` is the
execution-time ceiling used by the watchdog. -/
structure Config where
  imagesPerAdGroup : Nat
  mode : AdiosMode
  imgGenPrompt : String
  imgGenPromptSuffix : String
  textPromptContext : String
  textPrompt : String
  textPromptSuffix : String
  timeBudgetMs : Nat

/-- The external collaborators of `run()`.

* `countImages a g` models `gcsApi.countImages` over the three configured
  subfolders; `keywordsFor g` models the keyword texts returned by
  `googleAdsApi.getKeywordsForAdGroup`; `regexGroups name` models
  `getRegexMatchGroups(name, regex)` (the JavaScript regex engine, with
  `none` for "no match or no named groups"); `gemini` models
  `vertexAiApi.callGeminiApi`; `vision n prompt k` models the `n`-th call of
  `vertexAiApi.callVisionApi` in this invocation; `nowAtCheck i` is the wall
  clock observed at the watchdog check before position `i`. -/
structure Env where
  adGroups : List AdGroup
  countImages : String → String → Nat
  keywordsFor : String → List String
  regexGroups : String → Option (List (String × String))
  gemini : String → String
  vision : Nat → String → Nat → List String
  nowAtCheck : Nat → Nat

/-- The durable state (script properties) plus observable effect counters.
`cursor` is the `lastImageGenerationProcessedAdGroupId` property,
`cursorWrites` the trace of writes to it (`some id` for `setProperty`,
`none` for `deleteProperty`), `startTime` the persisted
`ImageGenerationServiceStartTime` property, `visionCalls` the number of
image-generation calls made, `uploads` the number of images uploaded,
`scheduled` the number of follow-up triggers created and `trigDeleted` the
number of `deleteTrigger` calls. -/
structure St where
  cursor : Option String
  cursorWrites : List (Option String)
  startTime : Nat
  visionCalls : Nat
  uploads : Nat
  scheduled : Nat
  trigDeleted : Nat
deriving DecidableEq

/-- Outcome of one invocation of `run()`. `hang` models the inner `while`
loop failing to terminate (fuel exhausted at every fuel), `jsError` models
an uncaught JavaScript `TypeError`. -/
inductive RunResult
  | finished (st : St)
  | interrupted (st : St)
  | hang
  | jsError (msg : String) (st : St)
deriving DecidableEq

/-! ### The service -/

/-- `VertexAiApi.VISION_API_LIMIT` (per-call image cap, 4). -/
def VISION_API_LIMIT : Nat := 4

/-- `const MAX_TRIES = 3` in `run()`. -/
def MAX_TRIES : Nat := 3

/-- The literal placeholder `'${' + key + '}'` built in `createPrompt`. -/
def placeholderStr (key : String) : String :=
  "$\x7b" ++ key ++ "\x7d"

/-- `createPrompt`: fold JavaScript `replaceAll` of each `${key}` by its
value over the entries of the match-group object, starting from
`CONFIG['ImgGen Prompt']`. `Object.entries` iteration order is the list
order. -/
def createPrompt (cfg : Config) (obj : List (String × String)) : String :=
  obj.foldl (fun prompt kv => replaceAllStr prompt (placeholderStr kv.1) kv.2)
    cfg.imgGenPrompt

/-- `generateImageFileName`: strip `/` from the name, budget the remaining
length against the first `Date.now()` capture `t1`, and build the final
string with the second capture `t2` (the source calls `Date.now()` twice). -/
def generateImageFileName (adGroupId : Nat) (adGroupName : String)
    (t1 t2 : Nat) : String :=
  let name := adGroupName.data.filter (fun c => c ≠ '/')
  let nowStr := Nat.repr t1
  let idStr := Nat.repr adGroupId
  let adGroupNameLimit : Int :=
    (128 : Int) - nowStr.length - idStr.length - 2
  let trimmedAdGroupName := jsSlice name adGroupNameLimit
  idStr ++ "|" ++ String.mk trimmedAdGroupName ++ "|" ++ Nat.repr t2

/-- The text prompt sent to Gemini in KEYWORDS (and unknown) mode:
`` `${promptContext} ${CONFIG['Text Prompt']} ${gAdsData}` `` plus the
optional suffix. -/
def geminiPrompt (cfg : Config) (gAdsData : String) : String :=
  let t := cfg.textPromptContext ++ " " ++ cfg.textPrompt ++ " " ++ gAdsData
  if cfg.textPromptSuffix = "" then t else t ++ " " ++ cfg.textPromptSuffix

/-- The `switch (CONFIG['Adios Mode'])` of the inner loop, producing
`gAdsData`. `none` is the `KEYWORDS`-mode branch for an empty keyword list,
whose `continue` re-enters the `while` loop. -/
def gAdsDataFor (cfg : Config) (env : Env) (ag : AdGroup) : Option String :=
  match cfg.mode with
  | AdiosMode.adGroupMode =>
    some (match env.regexGroups ag.name with
      | some groups => createPrompt cfg groups
      | none => cfg.imgGenPrompt)
  | AdiosMode.keywordsMode =>
    let keywordList := dedupJs (env.keywordsFor ag.id)
    if keywordList.isEmpty then none
    else some (String.intercalate "," keywordList)
  | AdiosMode.unknownMode => some ""

/-- The image batch received in one iteration of the inner loop: assemble
the Imagen prompt (directly in AD_GROUP mode, through Gemini otherwise,
plus the optional suffix) and call the Vision API for `imgCount` images,
`st.visionCalls` being the index of this call. -/
def visionResult (cfg : Config) (env : Env) (st : St) (gAdsData : String)
    (imgCount : Nat) : List String :=
  let imgPrompt0 :=
    if cfg.mode = AdiosMode.adGroupMode then gAdsData
    else env.gemini (geminiPrompt cfg gAdsData)
  let imgPrompt :=
    if cfg.imgGenPromptSuffix = "" then imgPrompt0
    else imgPrompt0 ++ " " ++ cfg.imgGenPromptSuffix
  env.vision st.visionCalls imgPrompt imgCount

/-- The inner `while (generatedImages < adGroupImgCount && numTries <=
MAX_TRIES)` loop of `run()`, with explicit fuel. `none` means the fuel ran
out, i.e. the loop performed that many iterations without exiting. -/
def innerLoop (cfg : Config) (env : Env) (ag : AdGroup) (cnt : Nat) :
    Nat → Nat → Nat → St → Option St
  | 0, _, _, _ => none
  | fuel+1, generatedImages, numTries, st =>
    if generatedImages < cnt ∧ numTries ≤ MAX_TRIES then
      match gAdsDataFor cfg env ag with
      | none => innerLoop cfg env ag cnt fuel generatedImages numTries st
      | some gAdsData =>
        let images :=
          visionResult cfg env st gAdsData
            (min VISION_API_LIMIT (cnt - generatedImages))
        if images.isEmpty then
          innerLoop cfg env ag cnt fuel generatedImages (numTries + 1)
            {st with visionCalls := st.visionCalls + 1}
        else
          innerLoop cfg env ag cnt fuel (generatedImages + images.length)
            numTries
            {st with visionCalls := st.visionCalls + 1,
                     uploads := st.uploads + images.length}
    else
      some st

/-- The body of one iteration of the outer `for` loop, after the watchdog
check: count existing images, `continue` when the quota is already met
(without touching the cursor), otherwise run the inner loop and then persist
this ad group's id as the cursor. -/
def processItem (cfg : Config) (env : Env) (ag : AdGroup) (fuel : Nat)
    (st : St) : Option St :=
  let existingImgCount := env.countImages ag.customerId ag.id
  if existingImgCount ≥ cfg.imagesPerAdGroup then
    some st
  else
    let adGroupImgCount := cfg.imagesPerAdGroup - existingImgCount
    match innerLoop cfg env ag adGroupImgCount fuel 0 0 st with
    | none => none
    | some st2 =>
      some {st2 with cursor := some ag.id,
                     cursorWrites := st2.cursorWrites ++ [some ag.id]}

/-- Modelled from the spec: `Triggerable.shouldTerminate` is not under
`src/`. Per the spec (section 5), the watchdog compares the elapsed
wall-clock time since the persisted RunStartTimestamp against a fixed
execution-time ceiling; the check runs once before each work item. -/
def shouldTerminate (cfg : Config) (st : St) (env : Env) (i : Nat) : Bool :=
  decide (cfg.timeBudgetMs < env.nowAtCheck i - st.startTime)

/-- The `startIndex` computation of `run()`: `0` when no (truthy) cursor is
persisted, otherwise the raw `findIndex` result, which is `-1` when the
identifier is absent from the list. -/
def computeStartIndex (cursor : Option String) (ags : List AdGroup) : Int :=
  match cursor with
  | none => 0
  | some c =>
    if c = "" then 0
    else jsFindIndex (fun g => g.id = c) ags

/-- The uncaught error raised when the loop dereferences
`adGroups[-1].adGroup`. -/
def errorMessage : String :=
  "TypeError: Cannot read properties of undefined"

/-- The outer `for (let i = startIndex; i < adGroups.length; i++)` loop over
the remaining suffix of the ad-group list. On the watchdog firing: persist
the current id, create one follow-up trigger and stop. After the last item:
delete the cursor property and delete the trigger. -/
def outerLoop (cfg : Config) (env : Env) (fuel : Nat) :
    List AdGroup → Nat → St → RunResult
  | [], _, st =>
    RunResult.finished
      {st with cursor := none,
               cursorWrites := st.cursorWrites ++ [none],
               trigDeleted := st.trigDeleted + 1}
  | ag :: rest, i, st =>
    if shouldTerminate cfg st env i then
      RunResult.interrupted
        {st with cursor := some ag.id,
                 cursorWrites := st.cursorWrites ++ [some ag.id],
                 scheduled := st.scheduled + 1}
    else
      match processItem cfg env ag fuel st with
      | none => RunResult.hang
      | some st2 => outerLoop cfg env fuel rest (i + 1) st2

/-- `run()`: delete any pending trigger, fetch the ad groups, resolve the
start index from the persisted cursor, and iterate. A negative start index
(`findIndex` miss) makes the first iteration dereference `adGroups[-1]`,
an uncaught TypeError. -/
def run (cfg : Config) (env : Env) (fuel : Nat) (st : St) : RunResult :=
  let st1 := {st with trigDeleted := st.trigDeleted + 1}
  let startIndex := computeStartIndex st1.cursor env.adGroups
  if startIndex < 0 then RunResult.jsError errorMessage st1
  else outerLoop cfg env fuel (env.adGroups.drop startIndex.toNat)
    startIndex.toNat st1

/-- The cursor-clearing step of `manuallyRun()`: delete the
`lastImageGenerationProcessedAdGroupId` property when it is truthy. -/
def manualClear (st : St) : St :=
  match st.cursor with
  | some c =>
    if c = "" then st
    else {st with cursor := none, cursorWrites := st.cursorWrites ++ [none]}
  | none => st

/-- `static manuallyRun()`: persist a fresh StartTime, clear any truthy
cursor, then invoke `run()`. -/
def manuallyRun (cfg : Config) (env : Env) (fuel : Nat) (now : Nat)
    (st : St) : RunResult :=
  run cfg env fuel (manualClear {st with startTime := now})

/-- `static triggeredRun()`: persist a fresh StartTime, then invoke
`run()`. -/
def triggeredRun (cfg : Config) (env : Env) (fuel : Nat) (now : Nat)
    (st : St) : RunResult :=
  run cfg env fuel {st with startTime := now}

/-! ### Concrete fixtures used by counterexamples and witnesses -/

/-- A sample ad group with identifier `"0"`. -/
def g0 : AdGroup := {id := "0", name := "Base Ad", customerId := "c1"}

/-- A sample ad group with identifier `"1"`. -/
def g1 : AdGroup := {id := "1", name := "Shoes Ad", customerId := "c1"}

/-- A sample configuration: AD_GROUP mode, two images per ad group, the
prompt template from the source documentation, a 1000 ms time budget. -/
def cfgBase : Config :=
  { imagesPerAdGroup := 2
    mode := AdiosMode.adGroupMode
    imgGenPrompt := "A photo of a $\x7bcity\x7d"
    imgGenPromptSuffix := ""
    textPromptContext := ""
    textPrompt := ""
    textPromptSuffix := ""
    timeBudgetMs := 1000 }

/-- `cfgBase` with a one-image quota. -/
def cfgOne : Config := {cfgBase with imagesPerAdGroup := 1}

/-- `cfgOne` in KEYWORDS mode. -/
def cfgK : Config := {cfgOne with mode := AdiosMode.keywordsMode}

/-- `cfgBase` with a zero time budget (the watchdog fires at once). -/
def cfgHot : Config := {cfgBase with timeBudgetMs := 0}

/-- `cfgBase` with a generic template `xy${k}zw`. -/
def cfgC9w : Config := {cfgBase with imgGenPrompt := "xy$\x7bk\x7dzw"}

/-- An environment with one ad group that already has five stored images,
no keywords, no regex match, and an image API that returns nothing. -/
def envSkip : Env :=
  { adGroups := [g1]
    countImages := fun _ _ => 5
    keywordsFor := fun _ => []
    regexGroups := fun _ => none
    gemini := fun _ => ""
    vision := fun _ _ _ => []
    nowAtCheck := fun _ => 0 }

/-- `envSkip` with zero stored images (the item needs generation). -/
def envVision0 : Env := {envSkip with countImages := fun _ _ => 0}

/-- `envVision0` whose image API returns one image per call. -/
def envGen : Env := {envVision0 with vision := fun _ _ _ => ["img1"]}

/-- `envSkip` with an empty ad-group list. -/
def envNil : Env := {envSkip with adGroups := []}

/-- `envSkip` with the wall clock five ms past the start timestamp. -/
def envHot : Env := {envSkip with nowAtCheck := fun _ => 5}

/-- Two processable ad groups, hot clock. -/
def envTwo : Env :=
  {envHot with adGroups := [g0, g1], countImages := fun _ _ => 0}

/-- The empty initial store: no cursor, no effects yet. -/
def stZero : St :=
  { cursor := none, cursorWrites := [], startTime := 0, visionCalls := 0
    uploads := 0, scheduled := 0, trigDeleted := 0 }

/-- A store holding a stale cursor value matching no ad group. -/
def stStale : St := {stZero with cursor := some "zzz"}

/-- A store holding the cursor value `"1"`. -/
def stCursor1 : St := {stZero with cursor := some "1"}

/-- The store after a completed run that wrote nothing but the final cursor
delete: one trigger delete at entry, one at exit. -/
def stFinNil : St := {stZero with cursorWrites := [none], trigDeleted := 2}

/-- The store after a completed run that generated one image for `g1`. -/
def stGenDone : St :=
  { cursor := none, cursorWrites := [some "1", none], startTime := 0
    visionCalls := 1, uploads := 1, scheduled := 0, trigDeleted := 2 }

/-- A 150-character ad-group name. -/
def longName : String := String.mk (List.replicate 150 'a')

/-! ### Lemmas about the JavaScript string primitives -/

theorem leadsWith_head {a b : Char} {as bs : List Char}
    (h : leadsWith (a :: as) (b :: bs) = true) : a = b := by
  by_cases hab : a = b
  · exact hab
  · simp [leadsWith, hab] at h

theorem leadsWith_append_self (p t : List Char) :
    leadsWith p (p ++ t) = true := by
  induction p with
  | nil => simp [leadsWith]
  | cons a as ih => simp [leadsWith, ih]

theorem replaceAllAux_congr (p r : List Char) :
    ∀ f1 f2 before s, s.length ≤ f1 → s.length ≤ f2 →
      replaceAllAux p r f1 before s = replaceAllAux p r f2 before s := by
  intro f1
  induction f1 with
  | zero =>
    intro f2 before s h1 _
    have hs : s = [] := List.eq_nil_of_length_eq_zero (Nat.le_zero.mp h1)
    subst hs
    cases f2 <;> rfl
  | succ f ih =>
    intro f2 before s h1 h2
    cases s with
    | nil => cases f2 <;> rfl
    | cons c cs =>
      cases f2 with
      | zero => simp at h2
      | succ f2 =>
        by_cases hc : (!p.isEmpty && leadsWith p (c :: cs)) = true
        · have hp : 1 ≤ p.length := by
            cases p with
            | nil => simp at hc
            | cons x xs => simp
          have hd : ((c :: cs).drop p.length).length ≤ f := by
            simp only [List.length_drop, List.length_cons]
            simp only [List.length_cons] at h1
            omega
          have hd2 : ((c :: cs).drop p.length).length ≤ f2 := by
            simp only [List.length_drop, List.length_cons]
            simp only [List.length_cons] at h2
            omega
          simp only [replaceAllAux, hc, if_true]
          exact congrArg _ (ih f2 _ _ hd hd2)
        · simp only [replaceAllAux, hc, if_false]
          have hcs : cs.length ≤ f := by
            simp only [List.length_cons] at h1; omega
          have hcs2 : cs.length ≤ f2 := by
            simp only [List.length_cons] at h2; omega
          exact congrArg (c :: ·) (ih f2 _ cs hcs hcs2)

theorem raRun_cons (p r before : List Char) (c : Char) (cs : List Char) :
    raRun p r before (c :: cs) =
      if !p.isEmpty && leadsWith p (c :: cs) then
        getSubstitution p before ((c :: cs).drop p.length) r ++
          raRun p r (before ++ p) ((c :: cs).drop p.length)
      else c :: raRun p r (before ++ [c]) cs := by
  by_cases hc : (!p.isEmpty && leadsWith p (c :: cs)) = true
  · have hp : 1 ≤ p.length := by
      cases p with
      | nil => simp at hc
      | cons x xs => simp
    simp only [raRun, List.length_cons, replaceAllAux, hc, if_true]
    refine congrArg _ (replaceAllAux_congr p r _ _ _ _ ?_ ?_)
    · simp only [List.length_drop, List.length_cons]; omega
    · exact le_refl _
  · have hcf : (!p.isEmpty && leadsWith p (c :: cs)) = false := by
      simpa using hc
    simp [raRun, replaceAllAux, hcf]

theorem raRun_of_not_occurs (p r : List Char) :
    ∀ s before, occursIn p s = false → raRun p r before s = s := by
  intro s
  induction s with
  | nil => intro _ _; rfl
  | cons c cs ih =>
    intro before h
    simp only [occursIn, Bool.or_eq_false_iff] at h
    rw [raRun_cons]
    simp [h.1, ih _ h.2]

theorem occursIn_of_head_notMem (d : Char) (p2 : List Char) :
    ∀ s, (∀ c ∈ s, c ≠ d) → occursIn (d :: p2) s = false := by
  intro s
  induction s with
  | nil => intro _; rfl
  | cons c cs ih =>
    intro h
    have hc : d ≠ c := fun he => h c (by simp) he.symm
    simp only [occursIn, Bool.or_eq_false_iff]
    constructor
    · simp [leadsWith, hc]
    · exact ih fun c hc2 => h c (by simp [hc2])

theorem raRun_append_left (d : Char) (p2 r : List Char) :
    ∀ s before t, (∀ c ∈ s, c ≠ d) →
      raRun (d :: p2) r before (s ++ t) =
        s ++ raRun (d :: p2) r (before ++ s) t := by
  intro s
  induction s with
  | nil => intro before t _; simp
  | cons c cs ih =>
    intro before t h
    have hc : d ≠ c := fun he => h c (by simp) he.symm
    rw [List.cons_append, raRun_cons]
    have hl : leadsWith (d :: p2) (c :: (cs ++ t)) = false := by
      simp [leadsWith, hc]
    simp only [hl, Bool.and_false, Bool.false_eq_true, if_false]
    rw [ih _ t fun c hc2 => h c (by simp [hc2])]
    simp

theorem raRun_self_append (p r t before : List Char) (hp : p ≠ []) :
    raRun p r before (p ++ t) =
      getSubstitution p before t r ++ raRun p r (before ++ p) t := by
  cases p with
  | nil => exact absurd rfl hp
  | cons a as =>
    rw [List.cons_append, raRun_cons]
    have h1 : leadsWith (a :: as) (a :: (as ++ t)) = true := by
      have h2 := leadsWith_append_self (a :: as) t
      simpa using h2
    simp only [h1, List.isEmpty_cons, Bool.not_false, Bool.and_true,
      Bool.true_and, if_true]
    have h3 : (a :: (as ++ t)) = (a :: as) ++ t := rfl
    rw [h3, List.drop_left]

theorem getSubstitution_no_dollar (matched before after : List Char) :
    ∀ n r, r.length ≤ n → (∀ c ∈ r, c ≠ '$') →
      getSubstitution matched before after r = r := by
  intro n
  induction n with
  | zero =>
    intro r h1 _
    have hr : r = [] := List.eq_nil_of_length_eq_zero (Nat.le_zero.mp h1)
    subst hr
    rfl
  | succ n ih =>
    intro r h1 h2
    match r with
    | [] => rfl
    | [c] => rfl
    | a :: c :: t =>
      have ha : ¬(a = '$') := h2 a (by simp)
      simp only [getSubstitution, ha, if_false]
      refine congrArg (a :: ·) (ih (c :: t) ?_ ?_)
      · simp only [List.length_cons] at h1 ⊢; omega
      · intro x hx; exact h2 x (by simp [hx])

theorem replaceAllStr_of_not_occurs (s pat rep : String)
    (h : occursIn pat.data s.data = false) : replaceAllStr s pat rep = s := by
  unfold replaceAllStr replaceAllL
  rw [raRun_of_not_occurs pat.data rep.data s.data [] h]

theorem placeholderStr_data (k : String) :
    (placeholderStr k).data = '$' :: '\x7b' :: (k.data ++ ['\x7d']) := by
  simp [placeholderStr, String.data_append]

/-! ### Lemmas about the loops of `run()` -/

theorem innerLoop_pres (cfg : Config) (env : Env) (ag : AdGroup) (cnt : Nat) :
    ∀ fuel gen tries st st2,
      innerLoop cfg env ag cnt fuel gen tries st = some st2 →
      st2.trigDeleted = st.trigDeleted ∧ st2.startTime = st.startTime ∧
        st2.scheduled = st.scheduled := by
  intro fuel
  induction fuel with
  | zero =>
    intro gen tries st st2 h
    simp [innerLoop] at h
  | succ f ih =>
    intro gen tries st st2 h
    rw [innerLoop] at h
    split at h
    · split at h
      · exact ih _ _ _ _ h
      · dsimp only at h
        split at h
        · have hh := ih _ _ _ _ h
          exact hh
        · have hh := ih _ _ _ _ h
          exact hh
    · injection h with h
      subst h
      exact ⟨rfl, rfl, rfl⟩

theorem innerLoop_exit (cfg : Config) (env : Env) (ag : AdGroup) (cnt : Nat)
    (fuel gen tries : Nat) (st : St)
    (h : ¬(gen < cnt ∧ tries ≤ MAX_TRIES)) :
    innerLoop cfg env ag cnt (fuel + 1) gen tries st = some st := by
  rw [innerLoop, if_neg h]

theorem innerLoop_empty_step (cfg : Config) (env : Env) (ag : AdGroup)
    (cnt : Nat) (hv : ∀ n prompt k, env.vision n prompt k = [])
    (hm : gAdsDataFor cfg env ag ≠ none) (fuel gen tries : Nat) (st : St)
    (h1 : gen < cnt) (h2 : tries ≤ MAX_TRIES) :
    innerLoop cfg env ag cnt (fuel + 1) gen tries st =
      innerLoop cfg env ag cnt fuel gen (tries + 1)
        {st with visionCalls := st.visionCalls + 1} := by
  rw [innerLoop, if_pos ⟨h1, h2⟩]
  cases hd : gAdsDataFor cfg env ag with
  | none => exact absurd hd hm
  | some g =>
    dsimp only
    have he : visionResult cfg env st g (min VISION_API_LIMIT (cnt - gen)) = [] := by
      simp [visionResult, hv]
    rw [he]
    simp

theorem innerLoop_no_keywords (cfg : Config) (env : Env) (ag : AdGroup)
    (cnt : Nat) (hm : cfg.mode = AdiosMode.keywordsMode)
    (hk : env.keywordsFor ag.id = []) (hc : 0 < cnt) :
    ∀ fuel st, innerLoop cfg env ag cnt fuel 0 0 st = none := by
  have hd : gAdsDataFor cfg env ag = none := by
    simp [gAdsDataFor, hm, hk, dedupJs]
  intro fuel
  induction fuel with
  | zero => intro st; rfl
  | succ f ih =>
    intro st
    rw [innerLoop, if_pos ⟨hc, by simp [MAX_TRIES]⟩, hd]
    exact ih st

theorem innerLoop_empty_count (cfg : Config) (env : Env) (ag : AdGroup)
    (cnt : Nat) (hv : ∀ n prompt k, env.vision n prompt k = [])
    (hm : gAdsDataFor cfg env ag ≠ none) (hc : 0 < cnt) :
    ∀ d tries fuel st, tries + d = MAX_TRIES + 1 → d + 1 ≤ fuel →
      innerLoop cfg env ag cnt fuel 0 tries st =
        some {st with visionCalls := st.visionCalls + d} := by
  intro d
  induction d with
  | zero =>
    intro tries fuel st hd hf
    obtain ⟨f, rfl⟩ : ∃ f, fuel = f + 1 := ⟨fuel - 1, by omega⟩
    rw [innerLoop_exit cfg env ag cnt f 0 tries st
      (by simp only [MAX_TRIES] at hd ⊢; omega)]
    cases st
    simp
  | succ d ih =>
    intro tries fuel st hd hf
    obtain ⟨f, rfl⟩ : ∃ f, fuel = f + 1 := ⟨fuel - 1, by omega⟩
    rw [innerLoop_empty_step cfg env ag cnt hv hm f 0 tries st hc
      (by simp only [MAX_TRIES] at hd ⊢; omega)]
    rw [ih (tries + 1) f _ (by omega) (by omega)]
    cases st
    simp
    omega

theorem processItem_pres (cfg : Config) (env : Env) (ag : AdGroup)
    (fuel : Nat) (st st2 : St)
    (h : processItem cfg env ag fuel st = some st2) :
    st2.trigDeleted = st.trigDeleted ∧ st2.startTime = st.startTime ∧
      st2.scheduled = st.scheduled := by
  unfold processItem at h
  dsimp only at h
  split at h
  · injection h with h
    subst h
    exact ⟨rfl, rfl, rfl⟩
  · split at h
    · cases h
    · rename_i st3 heq
      injection h with h
      subst h
      exact innerLoop_pres cfg env ag _ fuel 0 0 st st3 heq

theorem outerLoop_finished (cfg : Config) (env : Env) (fuel : Nat) :
    ∀ rest i st st2,
      outerLoop cfg env fuel rest i st = RunResult.finished st2 →
      st2.cursor = none ∧ st2.trigDeleted = st.trigDeleted + 1 ∧
        ∃ pre, st2.cursorWrites = pre ++ [none] := by
  intro rest
  induction rest with
  | nil =>
    intro i st st2 h
    simp only [outerLoop] at h
    injection h with h
    subst h
    exact ⟨rfl, rfl, ⟨st.cursorWrites, rfl⟩⟩
  | cons ag rest ih =>
    intro i st st2 h
    simp only [outerLoop] at h
    split at h
    · cases h
    · split at h
      · cases h
      · rename_i st3 heq
        obtain ⟨h1, h2, h4⟩ := ih (i + 1) st3 st2 h
        have h3 := (processItem_pres cfg env ag fuel st st3 heq).1
        exact ⟨h1, by omega, h4⟩

/-! ### Lemmas about `findIndex` and the start index -/

theorem jsFindIndex_none (p : AdGroup → Bool) :
    ∀ ags, (∀ g ∈ ags, p g = false) → jsFindIndex p ags = -1 := by
  intro ags
  induction ags with
  | nil => intro _; rfl
  | cons x xs ih =>
    intro h
    have hx : p x = false := h x (by simp)
    have hr : jsFindIndex p xs = -1 := ih fun g hg => h g (by simp [hg])
    simp [jsFindIndex, hx, hr]

theorem jsFindIndex_at (p : AdGroup → Bool) :
    ∀ (ags : List AdGroup) (j : Nat) (ag : AdGroup) (rest : List AdGroup),
      ags.drop j = ag :: rest → p ag = true →
      (∀ k (hk : k < j) (hkl : k < ags.length), p (ags.get ⟨k, hkl⟩) = false) →
      jsFindIndex p ags = j := by
  intro ags
  induction ags with
  | nil =>
    intro j ag rest hdrop
    simp at hdrop
  | cons x xs ih =>
    intro j ag rest hdrop hp hbefore
    cases j with
    | zero =>
      rw [List.drop_zero] at hdrop
      injection hdrop with h1 h2
      subst h1
      simp [jsFindIndex, hp]
    | succ j =>
      have hx : p x = false := by
        have h0 := hbefore 0 (Nat.succ_pos j) (by simp)
        simpa using h0
      have hdrop2 : xs.drop j = ag :: rest := by
        simpa [List.drop_succ_cons] using hdrop
      have hr : jsFindIndex p xs = (j : Int) := by
        refine ih j ag rest hdrop2 hp fun k hk hkl => ?_
        have hb := hbefore (k + 1) (by omega)
          (by simpa using Nat.succ_lt_succ hkl)
        simpa using hb
      have hnonneg : ¬((j : Int) < 0) := by
        exact not_lt.mpr (Int.natCast_nonneg j)
      simp [jsFindIndex, hx, hr, hnonneg]

theorem createPrompt_foldl_fixed :
    ∀ (obj : List (String × String)) (prompt : String),
      (∀ kv ∈ obj, occursIn (placeholderStr kv.1).data prompt.data = false) →
      obj.foldl (fun pr kv => replaceAllStr pr (placeholderStr kv.1) kv.2)
        prompt = prompt := by
  intro obj
  induction obj with
  | nil => intro prompt _; rfl
  | cons kv rest ih =>
    intro prompt h
    simp only [List.foldl_cons]
    rw [replaceAllStr_of_not_occurs _ _ _ (h kv (by simp))]
    exact ih prompt fun kv2 h2 => h kv2 (by simp [h2])

/-! ### The claims -/

/-- C1, counterexample. A work item whose stored-image count (5) is at
least the quota (2) receives zero image-generation calls, but contrary to
the claim its identifier is never persisted as the cursor: the skip path
`continue`s past the `setProperty` call, so the only cursor write of the
whole run is the final delete. -/
theorem C1_skip_counterexample :
    run cfgBase envSkip 10 stZero = RunResult.finished stFinNil ∧
    stFinNil.visionCalls = 0 ∧
    (some "1") ∉ stFinNil.cursorWrites ∧
    stFinNil.cursor ≠ some "1" := by
  refine ⟨by decide, by decide, by decide, by decide⟩

/-- C1, amended. For every work item whose existing artifact count is at
least the configured quota, the per-item processing makes zero
image-generation calls and leaves the store completely unchanged: in
particular the item's identifier is not written as the cursor (the skip
path bypasses the cursor update). -/
theorem C1_skip_leaves_state (cfg : Config) (env : Env) (ag : AdGroup)
    (fuel : Nat) (st : St)
    (h : env.countImages ag.customerId ag.id ≥ cfg.imagesPerAdGroup) :
    processItem cfg env ag fuel st = some st := by
  simp only [processItem]
  rw [if_pos h]

/-- C1, witness for the amended theorem at a concrete skipped item. -/
theorem C1_skip_leaves_state_witness :
    processItem cfgBase envSkip g1 3 stZero = some stZero ∧
      envSkip.countImages g1.customerId g1.id ≥ cfgBase.imagesPerAdGroup :=
  ⟨C1_skip_leaves_state cfgBase envSkip g1 3 stZero (by decide), by decide⟩

/-- C2, counterexample. With a persisted cursor `"zzz"` matching no ad
group, `run()` does not restart from index 0: `findIndex` yields `-1`, the
loop dereferences `adGroups[-1]` and the invocation dies with a TypeError
having made zero generation calls, whereas the same run with no cursor
processes the whole list (one generation call, one upload). -/
theorem C2_stale_cursor_counterexample :
    run cfgOne envGen 10 stStale =
      RunResult.jsError errorMessage {stStale with trigDeleted := 1} ∧
    run cfgOne envGen 10 stZero = RunResult.finished stGenDone ∧
    stGenDone.visionCalls = 1 := by
  refine ⟨by decide, by decide, by decide⟩

/-- C2, amended. When the persisted cursor is truthy and matches no work
item of the freshly fetched list, `run()` does not process any item at all:
the start index becomes `-1` and the invocation aborts with an uncaught
TypeError, leaving the store unchanged apart from the entry trigger
delete. -/
theorem C2_stale_cursor_error (cfg : Config) (env : Env) (fuel : Nat)
    (st : St) (c : String) (hcur : st.cursor = some c) (hc : c ≠ "")
    (habsent : ∀ g ∈ env.adGroups, g.id ≠ c) :
    run cfg env fuel st =
      RunResult.jsError errorMessage
        {st with trigDeleted := st.trigDeleted + 1} := by
  have hfi : jsFindIndex (fun g => g.id = c) env.adGroups = -1 :=
    jsFindIndex_none _ env.adGroups fun g hg => by simp [habsent g hg]
  have hsi : computeStartIndex st.cursor env.adGroups = -1 := by
    rw [hcur]
    simp only [computeStartIndex]
    rw [if_neg hc]
    exact hfi
  simp only [run, hsi]
  norm_num

/-- C2, witness for the amended theorem at the stale cursor `"zzz"`. -/
theorem C2_stale_cursor_error_witness :
    run cfgOne envGen 4 stStale =
      RunResult.jsError errorMessage
        {stStale with trigDeleted := stStale.trigDeleted + 1} :=
  C2_stale_cursor_error cfgOne envGen 4 stStale "zzz" rfl (by decide)
    (by decide)

/-- C3. In KEYWORDS mode, a work item with an empty keyword list makes the
inner `while` loop spin forever: the `continue` in the empty-keyword branch
targets the `while` loop, not the outer `for` loop, and neither counter
changes, so for every fuel the per-item processing fails to terminate —
the item is never abandoned, no cursor write happens, and the run hangs
(the claim and the code's own "Skip AdGroup" log say it should move on). -/
theorem C3_no_keywords_nonterminating (cfg : Config) (env : Env)
    (ag : AdGroup) (fuel : Nat) (st : St)
    (hm : cfg.mode = AdiosMode.keywordsMode)
    (hk : env.keywordsFor ag.id = [])
    (hcount : env.countImages ag.customerId ag.id < cfg.imagesPerAdGroup) :
    processItem cfg env ag fuel st = none := by
  simp only [processItem]
  rw [if_neg (by omega)]
  rw [innerLoop_no_keywords cfg env ag _ hm hk (by omega) fuel st]

/-- C3, witness at the concrete failing input: KEYWORDS mode, quota 1, no
stored images, no keywords for ad group `"1"`. -/
theorem C3_no_keywords_witness :
    processItem cfgK envVision0 g1 7 stZero = none :=
  C3_no_keywords_nonterminating cfgK envVision0 g1 7 stZero rfl rfl
    (by decide)

/-- C4. When every image-generation call returns an empty batch, a work
item that needs images gets exactly 4 generation attempts (the initial try
plus `MAX_TRIES = 3` retries), is then abandoned without an error with no
uploads (the deficit stays unmet: only `visionCalls` moved), and its
identifier is still persisted as the cursor. The KEYWORDS hypothesis only
rules out the separate empty-keyword hang of C3. -/
theorem C4_retry_cap (cfg : Config) (env : Env) (ag : AdGroup) (fuel : Nat)
    (st : St) (hv : ∀ n prompt k, env.vision n prompt k = [])
    (hcount : env.countImages ag.customerId ag.id < cfg.imagesPerAdGroup)
    (hkw : cfg.mode = AdiosMode.keywordsMode →
      dedupJs (env.keywordsFor ag.id) ≠ [])
    (hfuel : 5 ≤ fuel) :
    processItem cfg env ag fuel st =
      some {st with cursor := some ag.id,
                    cursorWrites := st.cursorWrites ++ [some ag.id],
                    visionCalls := st.visionCalls + 4} := by
  have hm : gAdsDataFor cfg env ag ≠ none := by
    cases hmode : cfg.mode with
    | adGroupMode => simp [gAdsDataFor, hmode]
    | keywordsMode =>
      have hne := hkw hmode
      have hie : (dedupJs (env.keywordsFor ag.id)).isEmpty = false := by
        simpa [List.isEmpty_iff] using hne
      simp [gAdsDataFor, hmode, hie]
    | unknownMode => simp [gAdsDataFor, hmode]
  simp only [processItem]
  rw [if_neg (by omega)]
  rw [innerLoop_empty_count cfg env ag _ hv hm (by omega) 4 0 fuel st
    (by simp [MAX_TRIES]) (by omega)]

/-- C4, witness: quota 2, no stored images, AD_GROUP mode, a Vision API
that always returns an empty batch. -/
theorem C4_retry_cap_witness :
    processItem cfgBase envVision0 g1 5 stZero =
      some {stZero with cursor := some g1.id,
                        cursorWrites := stZero.cursorWrites ++ [some g1.id],
                        visionCalls := stZero.visionCalls + 4} :=
  C4_retry_cap cfgBase envVision0 g1 5 stZero (fun _ _ _ => rfl) (by decide)
    (by decide) (by decide)

/-- C5. At every position of the per-item loop, when the watchdog fires
(elapsed time since the persisted start timestamp exceeds the budget), the
loop persists that item's identifier as the cursor, creates exactly one
follow-up trigger and returns at once: the result state differs from the
incoming one only in those fields, so no generation call or upload happens
for this or any later position. -/
theorem C5_watchdog_interrupt (cfg : Config) (env : Env) (fuel : Nat)
    (ag : AdGroup) (rest : List AdGroup) (i : Nat) (st : St)
    (h : shouldTerminate cfg st env i = true) :
    outerLoop cfg env fuel (ag :: rest) i st =
      RunResult.interrupted
        {st with cursor := some ag.id,
                 cursorWrites := st.cursorWrites ++ [some ag.id],
                 scheduled := st.scheduled + 1} := by
  simp only [outerLoop, h, if_true]

/-- C5, witness: zero time budget, clock five ms past start. -/
theorem C5_watchdog_interrupt_witness :
    outerLoop cfgHot envHot 3 [g1] 0 stZero =
      RunResult.interrupted
        {stZero with cursor := some g1.id,
                     cursorWrites := stZero.cursorWrites ++ [some g1.id],
                     scheduled := stZero.scheduled + 1} :=
  C5_watchdog_interrupt cfgHot envHot 3 g1 [] 0 stZero (by decide)

/-- C6. The start index of `run()`: `0` when no cursor is persisted; the
position of the (first) work item whose identifier equals a persisted
truthy cursor otherwise. The third conjunct shows the item at that position
is re-processed rather than skipped: a run whose watchdog fires immediately
persists exactly that item's identifier again. -/
theorem C6_start_index :
    (∀ ags : List AdGroup, computeStartIndex none ags = 0) ∧
    (∀ (c : String) (ags : List AdGroup) (j : Nat) (ag : AdGroup)
        (rest : List AdGroup),
      ags.drop j = ag :: rest → ag.id = c → c ≠ "" →
      (∀ k (hk : k < j) (hkl : k < ags.length),
        (ags.get ⟨k, hkl⟩).id ≠ c) →
      computeStartIndex (some c) ags = (j : Int)) ∧
    (∀ (cfg : Config) (env : Env) (fuel : Nat) (st : St) (c : String)
        (j : Nat) (ag : AdGroup) (rest : List AdGroup),
      st.cursor = some c → c ≠ "" →
      env.adGroups.drop j = ag :: rest → ag.id = c →
      (∀ k (hk : k < j) (hkl : k < env.adGroups.length),
        (env.adGroups.get ⟨k, hkl⟩).id ≠ c) →
      shouldTerminate cfg st env j = true →
      run cfg env fuel st =
        RunResult.interrupted
          {st with cursor := some c,
                   cursorWrites := st.cursorWrites ++ [some c],
                   scheduled := st.scheduled + 1,
                   trigDeleted := st.trigDeleted + 1}) := by
  refine ⟨fun ags => rfl, ?_, ?_⟩
  · intro c ags j ag rest hdrop hid hc hbefore
    simp only [computeStartIndex]
    rw [if_neg hc]
    exact jsFindIndex_at _ ags j ag rest hdrop (by simp [hid])
      fun k hk hkl => by simpa using hbefore k hk hkl
  · intro cfg env fuel st c j ag rest hcur hc hdrop hid hbefore hterm
    have hsi : computeStartIndex st.cursor env.adGroups = (j : Int) := by
      rw [hcur]
      simp only [computeStartIndex]
      rw [if_neg hc]
      exact jsFindIndex_at _ _ j ag rest hdrop (by simp [hid])
        fun k hk hkl => by simpa using hbefore k hk hkl
    have hterm2 : shouldTerminate cfg
        ({st with trigDeleted := st.trigDeleted + 1} : St) env j = true :=
      hterm
    simp only [run, hsi]
    rw [if_neg (not_lt.mpr (Int.natCast_nonneg j))]
    rw [Int.toNat_natCast, hdrop]
    simp only [outerLoop, hterm2, if_true]
    subst hid
    cases st
    simp

/-- C6, witness: cursor `"1"` resolving to position 1 of a two-item list,
watchdog firing immediately. -/
theorem C6_start_index_witness :
    run cfgHot envTwo 5 stCursor1 =
      RunResult.interrupted
        {stCursor1 with cursor := some "1",
                        cursorWrites := stCursor1.cursorWrites ++ [some "1"],
                        scheduled := stCursor1.scheduled + 1,
                        trigDeleted := stCursor1.trigDeleted + 1} :=
  C6_start_index.2.2 cfgHot envTwo 5 stCursor1 "1" 1 g1 [] rfl (by decide)
    (by decide) rfl
    (fun k hk hkl => by
      have hk0 : k = 0 := by omega
      subst hk0
      have hg : envTwo.adGroups.get ⟨0, hkl⟩ = g0 := rfl
      rw [hg]
      decide)
    (by decide)

/-- C7. Whenever `run()` reaches the end of the list (an uninterrupted
run), the final state has no cursor, the cursor property was deleted (the
write trace ends with a delete), and the pending trigger was deleted: once
at entry and once after the loop, hence exactly two trigger deletes. -/
theorem C7_completion (cfg : Config) (env : Env) (fuel : Nat) (st st2 : St)
    (h : run cfg env fuel st = RunResult.finished st2) :
    st2.cursor = none ∧ st2.trigDeleted = st.trigDeleted + 2 ∧
      ∃ pre, st2.cursorWrites = pre ++ [none] := by
  simp only [run] at h
  split at h
  · cases h
  · have h2 := outerLoop_finished cfg env fuel _ _ _ _ h
    have h3 : st2.trigDeleted = st.trigDeleted + 1 + 1 := h2.2.1
    exact ⟨h2.1, by omega, h2.2.2⟩

/-- C7, witness: a run over an empty list finishes with the cursor deleted
and two trigger deletes. -/
theorem C7_completion_witness :
    stFinNil.cursor = none ∧
      stFinNil.trigDeleted = stZero.trigDeleted + 2 ∧
      ∃ pre, stFinNil.cursorWrites = pre ++ [none] :=
  C7_completion cfgBase envNil 1 stZero stFinNil (by decide)

set_option maxRecDepth 10000 in
/-- C8. The filename cap fails on the code as written: the name budget is
computed against the first `Date.now()` capture but the final string embeds
a second capture. One millisecond after `9999999999999` the timestamp gains
a decimal digit, and with an 11-digit ad-group id and a 150-character name
the result has 129 characters — contradicting the claim (and the source's
own doc comment, which promises less than 128). -/
theorem C8_filename_length_bug :
    (generateImageFileName 12345678901 longName 9999999999999
        10000000000000).length = 129 ∧
      ¬((generateImageFileName 12345678901 longName 9999999999999
        10000000000000).length ≤ 128) := by
  refine ⟨by decide, by decide⟩

/-- C9, counterexample. `createPrompt` hands the value to JavaScript
`replaceAll`, which interprets `$`-substitution sequences in the
replacement string: for the claim's own template and the mapping
`{city: "$&"}`, the inserted text is the matched placeholder itself, so the
output is the unchanged template, not `A photo of a $&` — the value is
not inserted verbatim for every mapping. -/
theorem C9_dollar_counterexample :
    createPrompt cfgBase [("city", "$&")] = "A photo of a $\x7bcity\x7d" ∧
      createPrompt cfgBase [("city", "$&")] ≠ "A photo of a $&" := by
  refine ⟨by decide, by decide⟩

/-- C9, amended. `createPrompt`: (1) the example of the claim — template
`A photo of a ${city}` with `{city: London}` yields `A photo of a London`;
(2) a template in which no key's `${key}` token occurs is returned verbatim
(in particular placeholders whose name is not a key of the mapping
survive); (3) in a template `pre ++ ${k} ++ post` whose context contains no
`$`, every literal occurrence of the key's placeholder is replaced by the
value, provided the value contains no `$` (otherwise JavaScript
substitution sequences such as `$&` are expanded, see the
counterexample). -/
theorem C9_create_prompt :
    (createPrompt cfgBase [("city", "London")] = "A photo of a London") ∧
    (∀ (cfg : Config) (obj : List (String × String)),
      (∀ kv ∈ obj,
        occursIn (placeholderStr kv.1).data cfg.imgGenPrompt.data = false) →
      createPrompt cfg obj = cfg.imgGenPrompt) ∧
    (∀ (cfg : Config) (k v : String) (pre post : List Char),
      cfg.imgGenPrompt.data = pre ++ (placeholderStr k).data ++ post →
      (∀ c ∈ pre, c ≠ '$') → (∀ c ∈ post, c ≠ '$') →
      (∀ c ∈ v.data, c ≠ '$') →
      (createPrompt cfg [(k, v)]).data = pre ++ v.data ++ post) := by
  refine ⟨by decide, ?_, ?_⟩
  · intro cfg obj h
    exact createPrompt_foldl_fixed obj cfg.imgGenPrompt h
  · intro cfg k v pre post hdata hpre hpost hv
    show replaceAllL (placeholderStr k).data v.data
      cfg.imgGenPrompt.data = pre ++ v.data ++ post
    rw [hdata, placeholderStr_data k, List.append_assoc]
    unfold replaceAllL
    rw [raRun_append_left '$' _ v.data pre [] _ hpre]
    rw [raRun_self_append ('$' :: '\x7b' :: (k.data ++ ['\x7d']))
      v.data post ([] ++ pre) (by simp)]
    rw [getSubstitution_no_dollar _ _ _ v.data.length v.data (le_refl _) hv]
    rw [raRun_of_not_occurs _ v.data post _
      (occursIn_of_head_notMem '$' _ post hpost)]
    simp [List.append_assoc]

/-- C9, witness for the two general conjuncts at concrete inputs. -/
theorem C9_create_prompt_witness :
    (createPrompt cfgC9w [("k", "VAL")]).data =
        "xy".data ++ "VAL".data ++ "zw".data ∧
      createPrompt cfgC9w [("nokey", "Z")] = cfgC9w.imgGenPrompt :=
  ⟨C9_create_prompt.2.2 cfgC9w "k" "VAL" "xy".data "zw".data (by decide)
      (by decide) (by decide) (by decide),
    C9_create_prompt.2.1 cfgC9w [("nokey", "Z")] (by decide)⟩

/-- C10. `manuallyRun()` persists the fresh start timestamp, clears any
truthy persisted cursor (only the degenerate empty-string value, which
`run()` already treats as absent, could remain), and the run it invokes
resolves start index `0` for every list and iterates the full ad-group
list from position 0 — a manual run always restarts from the beginning. -/
theorem C10_manual_restart (cfg : Config) (env : Env) (fuel now : Nat)
    (st : St) (ags : List AdGroup) :
    computeStartIndex (manualClear {st with startTime := now}).cursor ags
        = 0 ∧
    (manualClear {st with startTime := now}).startTime = now ∧
    ((manualClear {st with startTime := now}).cursor = none ∨
      (manualClear {st with startTime := now}).cursor = some "") ∧
    manuallyRun cfg env fuel now st =
      outerLoop cfg env fuel env.adGroups 0
        {manualClear {st with startTime := now} with
          trigDeleted := st.trigDeleted + 1} := by
  have hcur : (manualClear {st with startTime := now}).cursor = none ∨
      (manualClear {st with startTime := now}).cursor = some "" := by
    cases hc : st.cursor with
    | none => left; simp [manualClear, hc]
    | some c =>
      by_cases he : c = ""
      · right; simp [manualClear, hc, he]
      · left; simp [manualClear, hc, he]
  have hsi : ∀ l : List AdGroup,
      computeStartIndex (manualClear {st with startTime := now}).cursor l
        = 0 := by
    intro l
    rcases hcur with h | h <;> rw [h] <;> simp [computeStartIndex]
  have hstart : (manualClear {st with startTime := now}).startTime = now := by
    cases hc : st.cursor with
    | none => simp [manualClear, hc]
    | some c =>
      by_cases he : c = ""
      · simp [manualClear, hc, he]
      · simp [manualClear, hc, he]
  have htd : (manualClear {st with startTime := now}).trigDeleted
      = st.trigDeleted := by
    cases hc : st.cursor with
    | none => simp [manualClear, hc]
    | some c =>
      by_cases he : c = ""
      · simp [manualClear, hc, he]
      · simp [manualClear, hc, he]
  refine ⟨hsi ags, hstart, hcur, ?_⟩
  show run cfg env fuel (manualClear {st with startTime := now}) = _
  simp only [run, hsi]
  rw [if_neg (by norm_num)]
  rw [show ((0 : Int)).toNat = 0 from rfl, List.drop_zero, htd]

/-- C10, witness: a manual run with a stale persisted cursor resolves
start index 0. -/
theorem C10_manual_restart_witness :
    computeStartIndex (manualClear {stStale with startTime := 7}).cursor
      [g1] = 0 :=
  (C10_manual_restart cfgBase envSkip 3 7 stStale [g1]).1

end Adios
